import Mathlib

/-!
Verification of the EHS compliance chatbot retrieval pipeline.

The front-end components (src/fe/src) are embedded directly from the
TypeScript source.  The FastAPI back end (be/main.py and its scripts) is not
part of the source tree; its behaviour is modelled from the specification
where a claim requires it, and every such definition is marked
`Modelled from the spec:` in its doc comment.
-/

/-- JavaScript-style whitespace test used by `String.prototype.trim`
(restricted to the ASCII whitespace characters that matter here). -/
def jsWhitespace (c : Char) : Bool :=
  c = ' ' || c = '\t' || c = '\n' || c = '\r'

/-- Model of JavaScript `text.trim()`: drop leading and trailing whitespace. -/
def strTrim (s : String) : String :=
  ⟨((s.data.dropWhile jsWhitespace).reverse.dropWhile jsWhitespace).reverse⟩

/-- Query-routing mode, `"auto" | "law" | "rule"` in the request schema. -/
inductive Mode
  | auto
  | law
  | rule
deriving DecidableEq, Repr

/-- Control state of `ChatWindow` (src/fe/src/components/ChatWindow.tsx):
the `useState` cells driving the ask-request parameters. -/
structure Controls where
  mode : Mode
  useLaw : Bool
  useRule : Bool
  topk : Int
  ctxChars : Int
deriving DecidableEq, Repr

/-- Initial control state of `ChatWindow` (`useState` initializers,
ChatWindow.tsx lines 31–35). -/
def initControls : Controls :=
  { mode := .auto, useLaw := true, useRule := true, topk := 5, ctxChars := 6000 }

/-- The TopK input's `onChange` handler (ChatWindow.tsx lines 147–149):
`Math.min(20, Math.max(1, Number(e.target.value)))`. -/
def setTopk (n : Int) : Int := min 20 (max 1 n)

/-- The context-characters input's `onChange` handler (ChatWindow.tsx
lines 162–165): `Math.min(20000, Math.max(1000, Number(e.target.value)))`. -/
def setCtxChars (n : Int) : Int := min 20000 (max 1000 n)

/-- Body of the `/ask` POST request assembled by `handleSend`
(ChatWindow.tsx lines 64–70). -/
structure AskRequest where
  question : String
  topk : Int
  mode : Mode
  ctx_chars : Int
  dbs : Option (List String)
deriving DecidableEq, Repr

/-- The `dbs` array built in `handleSend` (ChatWindow.tsx lines 57–59):
push `"vector_db_law"` when the law checkbox is on, then `"vector_db_rule"`
when the rule checkbox is on. -/
def selectedDbs (useLaw useRule : Bool) : List String :=
  (if useLaw then ["vector_db_law"] else []) ++
    (if useRule then ["vector_db_rule"] else [])

/-- The `dbs` field of the request body (ChatWindow.tsx line 69):
`dbs.length ? dbs : undefined`. -/
def dbsField (useLaw useRule : Bool) : Option (List String) :=
  let dbs := selectedDbs useLaw useRule
  if dbs.length = 0 then none else some dbs

/-- `handleSend` (ChatWindow.tsx lines 50–70) as a function from the typed
text and UI state to the request it posts, `none` when it returns without
sending: `if (!text.trim() || loading) return;`. -/
def handleSend (text : String) (loading : Bool) (c : Controls) :
    Option AskRequest :=
  if (strTrim text == "") || loading then none
  else some
    { question := text
      topk := c.topk
      mode := c.mode
      ctx_chars := c.ctxChars
      dbs := dbsField c.useLaw c.useRule }

/-- `handleSubmit` of `ChatInput` (src/fe/src/components/ChatInput.tsx
lines 15–20): `if (!text.trim() || disabled) return; onSend(text)`.
Returns the text passed to `onSend`, or `none` when nothing is sent. -/
def handleSubmit (text : String) (disabled : Bool) : Option String :=
  if (strTrim text == "") || disabled then none else some text

/-- The `onKeyDown` handler of `ChatInput` (ChatInput.tsx lines 22–29):
plain Enter triggers the same guarded send as `handleSubmit`. -/
def onKeyDown (key : String) (shiftKey : Bool) (text : String)
    (disabled : Bool) : Option String :=
  if key = "Enter" && !shiftKey then
    if (strTrim text == "") || disabled then none else some text
  else none

/-- The C4 witness is stated on this send with both checkboxes off. -/
def bothOffControls : Controls :=
  { mode := .auto, useLaw := false, useRule := false, topk := 5,
    ctxChars := 6000 }

/-- C4: the question-answering request parameters default to `top_k = 5`,
`mode = "auto"`, `context_char_budget = 6000`, and every user-entered numeric
value is stored clamped as `min(upper, max(lower, input))` with bounds
`1..20` for `top_k` and `1000..20000` for the context budget. -/
theorem ask_params_defaults_and_clamped :
    initControls.topk = 5 ∧ initControls.mode = .auto ∧
      initControls.ctxChars = 6000 ∧
      (∀ n : Int, setTopk n = min 20 (max 1 n) ∧
        1 ≤ setTopk n ∧ setTopk n ≤ 20) ∧
      (∀ n : Int, setCtxChars n = min 20000 (max 1000 n) ∧
        1000 ≤ setCtxChars n ∧ setCtxChars n ≤ 20000) := by
  refine ⟨rfl, rfl, rfl, fun n => ⟨rfl, ?_, ?_⟩, fun n => ⟨rfl, ?_, ?_⟩⟩
  · exact le_min (by norm_num) (le_max_left 1 n)
  · exact min_le_left 20 _
  · exact le_min (by norm_num) (le_max_left 1000 n)
  · exact min_le_left 20000 _

/-- C5: a submission whose trimmed text is empty, or made while the input is
disabled or a request is in flight, performs no send; consequently every
request actually posted carries a question with non-empty trimmed content. -/
theorem posted_question_trim_nonempty :
    (∀ text c, handleSend text true c = none) ∧
      (∀ text loading c, strTrim text = "" → handleSend text loading c = none) ∧
      (∀ text disabled, strTrim text = "" → handleSubmit text disabled = none) ∧
      (∀ text, handleSubmit text true = none) ∧
      (∀ key shiftKey text, strTrim text = "" →
        onKeyDown key shiftKey text false = none) ∧
      (∀ text loading c req, handleSend text loading c = some req →
        strTrim req.question ≠ "") := by
  refine ⟨?_, ?_, ?_, ?_, ?_, ?_⟩
  · intro text c
    simp [handleSend]
  · intro text loading c h
    simp [handleSend, h]
  · intro text disabled h
    simp [handleSubmit, h]
  · intro text
    simp [handleSubmit]
  · intro key shiftKey text h
    simp [onKeyDown, h]
  · intro text loading c req h
    unfold handleSend at h
    split at h
    · exact absurd h (by simp)
    · next hcond =>
      injection h with h'
      rw [← h']
      simp only [Bool.or_eq_true, not_or, beq_iff_eq] at hcond
      exact hcond.1

/-- Witness for C5 at a concrete send. -/
theorem posted_question_trim_nonempty_witness :
    strTrim (AskRequest.question
      { question := " hi ", topk := 5, mode := .auto, ctx_chars := 6000,
        dbs := some ["vector_db_law", "vector_db_rule"] }) ≠ "" :=
  posted_question_trim_nonempty.2.2.2.2.2 " hi " false initControls _ rfl

/-- C10: every posted request's `dbs` field is either omitted (`none`) or a
non-empty subset of `{vector_db_law, vector_db_rule}`, and deselecting both
source databases omits the field rather than sending an empty list. -/
theorem dbs_omitted_or_nonempty_subset :
    ∀ text loading c req, handleSend text loading c = some req →
      (req.dbs = none ∨ ∃ l, req.dbs = some l ∧ l ≠ [] ∧
        ∀ x ∈ l, x ∈ ["vector_db_law", "vector_db_rule"]) ∧
      (c.useLaw = false → c.useRule = false → req.dbs = none) := by
  intro text loading c req h
  unfold handleSend at h
  split at h
  · exact absurd h (by simp)
  · injection h with h'
    have hdbs : req.dbs = dbsField c.useLaw c.useRule := by
      rw [← h']
    constructor
    · rw [hdbs]
      rcases Bool.eq_false_or_eq_true c.useLaw with h1 | h1 <;>
        rcases Bool.eq_false_or_eq_true c.useRule with h2 | h2 <;>
          simp [dbsField, selectedDbs, h1, h2]
    · intro h1 h2
      rw [hdbs]
      simp [dbsField, selectedDbs, h1, h2]

/-- Single-character test for `'/'`, used by the slash-normalising regexes. -/
def slashChar (c : Char) : Bool := c = '/'

/-- Model of the regex replace `apiBase.replace(/\/+$/, "")` in `absolutize`
(src/fe/src/components/EvidencePanel.tsx line 28): drop every trailing
slash. -/
def stripTrailingSlashes (s : String) : String :=
  ⟨(s.data.reverse.dropWhile slashChar).reverse⟩

/-- Model of the regex replace `url.replace(/^\/+/, "")` in `absolutize`
(EvidencePanel.tsx line 28): drop every leading slash. -/
def stripLeadingSlashes (s : String) : String :=
  ⟨s.data.dropWhile slashChar⟩

/-- Model of `apiBase.replace(/\/$/, "")` in `HitCard` (src/fe/src/App.tsx
line 59): the regex is unanchored-count, so at most one trailing slash is
removed. -/
def stripOneTrailingSlash (s : String) : String :=
  match s.data.getLast? with
  | some '/' => ⟨s.data.dropLast⟩
  | _ => s

/-- Model of the regex test `/^https?:\/\//i.test(url)` (EvidencePanel.tsx
line 24): a case-insensitive `http://` or `https://` prefix. -/
def isHttpAbs (u : String) : Bool :=
  ("http://".data.isPrefixOf (u.data.map Char.toLower)) ||
    ("https://".data.isPrefixOf (u.data.map Char.toLower))

/-- Model of JavaScript `url.startsWith("/")` (EvidencePanel.tsx line 26). -/
def headIsSlash (u : String) : Bool :=
  match u.data with
  | [] => false
  | c :: _ => slashChar c

/-- Model of JavaScript `u.startsWith(p)` for a general needle, used for the
`hit.image_url!.startsWith("http")` test in `HitCard` (App.tsx line 57). -/
def prefixB (p u : String) : Bool := p.data.isPrefixOf u.data

/-- First occurrence of `sep` inside a character list, returned as the text
before it and the text after it. -/
def findSub (sep : List Char) : List Char → Option (List Char × List Char)
  | [] => if sep.isEmpty then some ([], []) else none
  | c :: rest =>
    if sep.isPrefixOf (c :: rest) then some ([], (c :: rest).drop sep.length)
    else
      match findSub sep rest with
      | some (p, s) => some (c :: p, s)
      | none => none

/-- Whether one string occurs inside another. -/
def containsSub (needle hay : String) : Bool :=
  (findSub needle.data hay.data).isSome

/-- Whether a base URL carries a `scheme://` part, i.e. whether the
JavaScript `new URL(url, apiBase)` constructor succeeds on it. -/
def hasScheme (base : String) : Bool :=
  (findSub "://".data base.data).isSome

/-- Origin (`scheme://authority`) of a base URL: everything up to the first
slash after `://`.  `new URL(rootRelative, base).toString()` resolves a
root-relative path against exactly this origin. -/
def urlOrigin (base : String) : String :=
  match findSub "://".data base.data with
  | some (pre, post) => ⟨pre ++ "://".data ++ post.takeWhile (fun c => !slashChar c)⟩
  | none => base

/-- `absolutize` (EvidencePanel.tsx lines 20–32).  The
`new URL(url, apiBase).toString()` branch is modelled for the inputs it
receives there — a root-relative path resolved against the base's origin —
and the surrounding `try/catch` returns the url unchanged when the base has
no scheme and the constructor would throw. -/
def absolutize (apiBase : String) (url : Option String) : Option String :=
  match url with
  | none => none
  | some u =>
    if u = "" then none
    else if isHttpAbs u then some u
    else if headIsSlash u then
      if hasScheme apiBase then some (urlOrigin apiBase ++ u) else some u
    else some (stripTrailingSlashes apiBase ++ "/" ++ stripLeadingSlashes u)

/-- The `imgSrc` computation of `HitCard` (App.tsx lines 55–60):
`hasImg ? (startsWith("http") ? url : apiBase.replace(/\/$/, "") + url)
: undefined`. -/
def imgSrc (apiBase : String) (image_url : Option String) : Option String :=
  match image_url with
  | none => none
  | some u =>
    if u = "" then none
    else if prefixB "http" u then some u
    else some (stripOneTrailingSlash apiBase ++ u)

/-- Modelled from the spec: the four `AnnexRecord` kinds (§3); the extractor
`be/scripts/extract_rules_pdf.py` is not in the source tree. -/
inductive RecordKind
  | text
  | ocr_text
  | table
  | source_text
deriving DecidableEq, Repr

/-- Modelled from the spec: the two content formats of an `AnnexRecord`. -/
inductive ContentFormat
  | plain
  | markdown
deriving DecidableEq, Repr

/-- Modelled from the spec: one unit of extracted evidence (§3 AnnexRecord). -/
structure AnnexRecord where
  kind : RecordKind
  source_name : String
  locator : String
  content : String
  content_format : ContentFormat
  page_image_path : Option String
deriving DecidableEq, Repr

/-- Modelled from the spec: the extractor's per-page input — annex
classification, text layer, the OCR collaborator's result (`none` when OCR
failed), and the detected tables rendered as markdown (empty when table
detection failed or found nothing). -/
structure PageInput where
  isAnnex : Bool
  annexNo : Nat
  pageNo : Nat
  textLayer : String
  ocrText : Option String
  tables : List String
deriving DecidableEq, Repr

/-- Deterministic page-snapshot file name derived from annex and page number
(spec §6: images named from annex number and page number). -/
def imageFile (annexNo pageNo : Nat) : String :=
  "images/별표" ++ toString annexNo ++ "_p" ++ toString pageNo ++ ".png"

/-- Modelled from the spec (§4.1): records emitted for one page.  Body pages
yield one `source_text` record and are not rasterized; annex pages are
always rasterized, yield an `ocr_text` record when the text layer is below
the minimum threshold (or a `text` record otherwise), and one `table` record
per detected table; tables carry markdown, every other record plain text. -/
def extractPage (src : String) (minChars : Nat) (p : PageInput) :
    List AnnexRecord :=
  if !p.isAnnex then
    [{ kind := .source_text, source_name := src,
       locator := "p" ++ toString p.pageNo, content := p.textLayer,
       content_format := .plain, page_image_path := none }]
  else
    (if p.textLayer.length < minChars then
      match p.ocrText with
      | some t =>
        [{ kind := .ocr_text, source_name := src,
           locator := "별표" ++ toString p.annexNo ++ " p" ++ toString p.pageNo,
           content := t, content_format := .plain,
           page_image_path := some (imageFile p.annexNo p.pageNo) }]
      | none => []
    else
      [{ kind := .text, source_name := src,
         locator := "별표" ++ toString p.annexNo ++ " p" ++ toString p.pageNo,
         content := p.textLayer, content_format := .plain,
         page_image_path := some (imageFile p.annexNo p.pageNo) }]) ++
    (p.tables.enum.map fun it =>
      { kind := .table, source_name := src,
        locator := "별표" ++ toString p.annexNo ++ " t" ++ toString it.1,
        content := it.2, content_format := .markdown,
        page_image_path := some (imageFile p.annexNo p.pageNo) })

/-- Modelled from the spec (§4.1): a whole extraction run emits the per-page
records in page order. -/
def extractCorpus (src : String) (minChars : Nat) (ps : List PageInput) :
    List AnnexRecord :=
  ps.flatMap (extractPage src minChars)

/-- C7: every record of an extracted corpus has `content_format = markdown`
exactly when its kind is `table`; all other kinds carry plain text. -/
theorem record_markdown_iff_table :
    ∀ src minChars ps r, r ∈ extractCorpus src minChars ps →
      (r.content_format = ContentFormat.markdown ↔ r.kind = RecordKind.table) := by
  intro src minChars ps r hr
  rw [extractCorpus, List.mem_flatMap] at hr
  obtain ⟨p, -, hr⟩ := hr
  unfold extractPage at hr
  split at hr
  · simp at hr
    subst hr
    simp
  · rw [List.mem_append] at hr
    rcases hr with h | h
    · split at h
      · split at h
        · simp at h
          subst h
          simp
        · simp at h
      · simp at h
        subst h
        simp
    · simp only [List.mem_map] at h
      obtain ⟨a, -, h⟩ := h
      subst h
      simp

/-- Witness page for C7: a plain body page. -/
def bodyPage : PageInput :=
  { isAnnex := false, annexNo := 0, pageNo := 1, textLayer := "본문",
    ocrText := none, tables := [] }

/-- Witness for C7 at a concrete extraction run. -/
theorem record_markdown_iff_table_witness :
    (AnnexRecord.content_format
        { kind := .source_text, source_name := "법", locator := "p1",
          content := "본문", content_format := .plain,
          page_image_path := none } = ContentFormat.markdown ↔
      AnnexRecord.kind
        { kind := .source_text, source_name := "법", locator := "p1",
          content := "본문", content_format := .plain,
          page_image_path := none } = RecordKind.table) :=
  record_markdown_iff_table "법" 10 [bodyPage] _ (by decide)

/-- Modelled from the spec: the displayable fields an IndexEntry carries as
a back-reference to its originating `AnnexRecord` (§3 IndexEntry). -/
structure MetaEntry where
  source_name : String
  locator : String
  content : String
  content_format : ContentFormat
  page_image_path : Option String
deriving DecidableEq, Repr

/-- Modelled from the spec: a loaded Index — embedding vectors paired
one-to-one and order-preserving with their metadata (§3 Index, §4.2). -/
structure Index where
  entries : List (List ℚ × MetaEntry)
deriving DecidableEq

/-- Modelled from the spec: the Index Registry's label-to-Index mapping
(§4.3); `be/main.py` is not in the source tree. -/
def Registry : Type := List (String × Index)

/-- Modelled from the spec: atomic replacement of the registry entry for one
label by a fully constructed new Index (§4.3 load). -/
def setIndex (reg : Registry) (label : String) (idx : Index) : Registry :=
  (label, idx) :: List.filter (fun p => p.1 != label) reg

/-- Modelled from the spec: reloading one label — reading the on-disk data
either yields a brand-new Index that replaces the entry, or fails, leaving
the registry untouched and reporting `false` for that label (§4.3). -/
def loadLabel (disk : String → Option Index) (reg : Registry)
    (label : String) : Registry × Bool :=
  match disk label with
  | some idx => (setIndex reg label idx, true)
  | none => (reg, false)

/-- Modelled from the spec: the reload interface — rebuild a list of labels,
returning the new registry and per-label success/failure (§6 Reload
interface). -/
def reloadLabels (disk : String → Option Index) (reg : Registry) :
    List String → Registry × List (String × Bool)
  | [] => (reg, [])
  | l :: ls =>
    let step := loadLabel disk reg l
    let rest := reloadLabels disk step.1 ls
    (rest.1, (l, step.2) :: rest.2)

/-- Filtering out another key's entries does not change a lookup. -/
theorem lookup_filter_ne (l l' : String) (h : l ≠ l') :
    ∀ reg : List (String × Index),
      List.lookup l (List.filter (fun p => p.1 != l') reg) = List.lookup l reg := by
  intro reg
  induction reg with
  | nil => rfl
  | cons hd t ih =>
    obtain ⟨k, v⟩ := hd
    by_cases hk : k = l'
    · subst hk
      have hb : (l == k) = false := beq_eq_false_iff_ne.mpr h
      simp [List.filter_cons, List.lookup, hb, ih]
    · have hb : (k != l') = true := bne_iff_ne.mpr hk
      simp only [List.filter_cons, hb, if_true]
      rcases hbeq : (l == k) with _ | _ <;> simp [List.lookup, hbeq, ih]

/-- Replacing another label's Index does not change a lookup. -/
theorem lookup_setIndex_ne (l l' : String) (idx : Index) (h : l ≠ l')
    (reg : Registry) : List.lookup l (setIndex reg l' idx) = List.lookup l reg := by
  have hb : (l == l') = false := beq_eq_false_iff_ne.mpr h
  simp [setIndex, List.lookup, hb, lookup_filter_ne l l' h]

/-- A label whose on-disk data fails to load keeps its registry entry across
any reload batch. -/
theorem reload_failed_lookup_eq (disk : String → Option Index) (l : String)
    (hfail : disk l = none) :
    ∀ (labels : List String) (reg : Registry),
      List.lookup l (reloadLabels disk reg labels).1 = List.lookup l reg := by
  intro labels
  induction labels with
  | nil => intro reg; rfl
  | cons l' ls ih =>
    intro reg
    show List.lookup l (reloadLabels disk (loadLabel disk reg l').1 ls).1 = _
    rcases hd : disk l' with _ | idx
    · rw [show (loadLabel disk reg l').1 = reg by simp [loadLabel, hd]]
      exact ih reg
    · have hne : l ≠ l' := by
        intro he
        rw [he, hd] at hfail
        exact Option.noConfusion hfail
      rw [show (loadLabel disk reg l').1 = setIndex reg l' idx by
        simp [loadLabel, hd]]
      rw [ih (setIndex reg l' idx)]
      exact lookup_setIndex_ne l l' idx hne reg

/-- A label whose on-disk data fails to load is reported as failed. -/
theorem reload_failed_reported (disk : String → Option Index) (l : String)
    (hfail : disk l = none) :
    ∀ (labels : List String) (reg : Registry), l ∈ labels →
      (l, false) ∈ (reloadLabels disk reg labels).2 := by
  intro labels
  induction labels with
  | nil => intro reg hmem; simp at hmem
  | cons l' ls ih =>
    intro reg hmem
    show (l, false) ∈ (l', (loadLabel disk reg l').2) ::
      (reloadLabels disk (loadLabel disk reg l').1 ls).2
    rcases List.mem_cons.mp hmem with he | hm
    · subst he
      have : (loadLabel disk reg l).2 = false := by simp [loadLabel, hfail]
      rw [this]
      exact List.mem_cons_self _ _
    · exact List.mem_cons_of_mem _ (ih _ hm)

/-- C8: when reloading a label fails, the previously loaded Index for that
label stays active and unchanged in the registry, and the failure is
reported for that label — it is never left silently unset. -/
theorem reload_failure_keeps_old_index (disk : String → Option Index)
    (reg : Registry) (labels : List String) (l : String)
    (hfail : disk l = none) (hmem : l ∈ labels) :
    List.lookup l (reloadLabels disk reg labels).1 = List.lookup l reg ∧
      (l, false) ∈ (reloadLabels disk reg labels).2 :=
  ⟨reload_failed_lookup_eq disk l hfail labels reg,
    reload_failed_reported disk l hfail labels reg hmem⟩

/-- Witness registry entry for C8. -/
def wOldIndex : Index :=
  ⟨[([], { source_name := "산업안전보건법", locator := "제1조",
           content := "목적", content_format := .plain,
           page_image_path := none })]⟩

/-- Witness on-disk state for C8: the law directory loads, the rule
directory is corrupt. -/
def wDisk : String → Option Index :=
  fun l => if l = "vector_db_law" then some ⟨[]⟩ else none

/-- Witness for C8: reloading both labels when the rule directory fails
keeps the old rule Index active and reports the failure. -/
theorem reload_failure_keeps_old_index_witness :
    List.lookup "vector_db_rule"
        (reloadLabels wDisk [("vector_db_rule", wOldIndex)]
          ["vector_db_law", "vector_db_rule"]).1 =
      List.lookup "vector_db_rule" [("vector_db_rule", wOldIndex)] ∧
      ("vector_db_rule", false) ∈
        (reloadLabels wDisk [("vector_db_rule", wOldIndex)]
          ["vector_db_law", "vector_db_rule"]).2 :=
  reload_failure_keeps_old_index wDisk [("vector_db_rule", wOldIndex)]
    ["vector_db_law", "vector_db_rule"] "vector_db_rule" (by decide) (by decide)

/-- Modelled from the spec: a ranked search result surfaced to the caller
(§3 Hit), together with the label of the index it came from and its rank
inside that index's result list (the merge tie-breakers of §4.4). -/
structure SHit where
  dbLabel : String
  rank : Nat
  distance : ℚ
  meta : MetaEntry
  label : String
  image_url : Option String
deriving DecidableEq

/-- Modelled from the spec: the configured static-serving base path
prefixed to `page_image_path` (§4.4, README `/static`). -/
def cfgStaticBase : String := "/static/"

/-- Display-ready citation label `[source · locator]` (README: 라벨 표기). -/
def hitLabel (m : MetaEntry) : String :=
  "[" ++ m.source_name ++ " · " ++ m.locator ++ "]"

/-- Modelled from the spec: `image_url` is the record's `page_image_path`
prefixed with the static base; absent when there is no page image (§4.4). -/
def resolveImage (m : MetaEntry) : Option String :=
  m.page_image_path.map (fun p => cfgStaticBase ++ p)

/-- Squared L2 distance between a query vector and a stored vector (the
FAISS `IndexFlatL2` metric named in the front end as `L2=`). -/
def sqDist (u v : List ℚ) : ℚ :=
  ((u.zip v).map (fun q => (q.1 - q.2) * (q.1 - q.2))).sum

/-- Modelled from the spec: `search(label, queryVector, k)` returns the `k`
nearest entries by distance ascending (§4.3), each tagged with the index
label and its rank in this per-index list. -/
def searchIndex (qv : List ℚ) (k : Nat) (label : String) (idx : Index) :
    List SHit :=
  (((List.insertionSort (fun a b => a.1 ≤ b.1)
      (idx.entries.map (fun e => (sqDist qv e.1, e.2)))).take k).enum).map
    fun ir =>
      { dbLabel := label, rank := ir.1, distance := ir.2.1, meta := ir.2.2,
        label := hitLabel ir.2.2, image_url := resolveImage ir.2.2 }

/-- Merge key of a hit: distance, then index label, then original rank —
the deterministic tie-break order of §4.4. -/
def hitKey (h : SHit) : Lex (ℚ × Lex (List Char × ℕ)) :=
  toLex (h.distance, toLex (h.dbLabel.data, h.rank))

/-- The merge order on hits: ascending distance with ties broken by index
label then original rank. -/
def hitLE (a b : SHit) : Prop := hitKey a ≤ hitKey b

instance : DecidableRel hitLE :=
  fun a b => inferInstanceAs (Decidable (hitKey a ≤ hitKey b))

instance : IsTotal SHit hitLE :=
  ⟨fun a b => le_total (hitKey a) (hitKey b)⟩

instance : IsTrans SHit hitLE :=
  ⟨fun _ _ _ hab hbc => le_trans hab hbc⟩

/-- A label belongs to the law family. -/
def isLawLabel (l : String) : Bool := containsSub "law" l

/-- A label belongs to the rule family. -/
def isRuleLabel (l : String) : Bool := containsSub "rule" l

/-- Modelled from the spec: mode resolution — `law` and `rule` restrict the
selected labels to their family, `auto` keeps all of them (§4.4). -/
def modeLabels (m : Mode) (dbs : List String) : List String :=
  match m with
  | .auto => dbs
  | .law => dbs.filter isLawLabel
  | .rule => dbs.filter isRuleLabel

/-- Modelled from the spec: the fixed delimiter between appended hit
contents in the assembled context (§4.4). -/
def ctxDelim : String := "\n\n"

/-- Modelled from the spec: append hits to the running buffer while the
cumulative character count stays within the budget, stopping before the
first hit that would push it over (§4.4). -/
def appendHits (budget : Nat) : String → List String → String
  | acc, [] => acc
  | acc, c :: rest =>
    if acc.length + ctxDelim.length + c.length ≤ budget then
      appendHits budget (acc ++ ctxDelim ++ c) rest
    else acc

/-- Truncation of a string to its first `n` characters. -/
def strTake (s : String) (n : Nat) : String := ⟨s.data.take n⟩

/-- Modelled from the spec: context assembly over the merged hit contents in
rank order; when the very first hit alone exceeds the budget its content is
truncated to exactly the budget (§4.4). -/
def buildContext (budget : Nat) : List String → String
  | [] => ""
  | c :: rest =>
    if c.length ≤ budget then appendHits budget c rest
    else strTake c budget

/-- Delimiter-join of a list of contents, the shape a fully appended prefix
of hits takes in the context buffer. -/
def glue : List String → String
  | [] => ""
  | c :: rest => rest.foldl (fun acc d => acc ++ ctxDelim ++ d) c

/-- Modelled from the spec: the `/ask` request parameters after validation
(§6): `top_k`, mode, context character budget and selected index labels. -/
structure AskParams where
  topk : Nat
  mode : Mode
  ctx_chars : Nat
  dbs : List String
deriving DecidableEq, Repr

/-- Modelled from the spec: the retrieval part of the `/ask` response —
merged ranked hits, assembled context, and the labels actually queried. -/
structure RouteResult where
  hits : List SHit
  context : String
  used_dbs : List String
deriving DecidableEq

/-- Modelled from the spec: the query router / context assembler (§4.4).
Selected labels are resolved by mode, looked up in the registry, each
available index is searched for `top_k` hits, the per-index lists are merged
by one global sort on the (distance, label, rank) key and truncated to
`top_k`, and the context is assembled from the merged contents under the
character budget.  Zero available indexes is a configuration error. -/
def answerQuery (embed : String → List ℚ) (reg : Registry)
    (question : String) (ps : AskParams) : Except String RouteResult :=
  let avail := (modeLabels ps.mode ps.dbs).filterMap
    (fun l => (List.lookup l reg).map (fun i => (l, i)))
  if avail.isEmpty then Except.error "no index selected"
  else
    let merged := (List.insertionSort hitLE
      ((avail.map (fun li => searchIndex (embed question) ps.topk li.1 li.2)).flatten)).take
        ps.topk
    Except.ok
      { hits := merged
        context := buildContext ps.ctx_chars (merged.map (fun h => h.meta.content))
        used_dbs := avail.map (fun li => li.1) }

/-- A successful `answerQuery` answer's hit list is a `top_k`-truncation of
one global sort of the per-index results. -/
theorem answerQuery_ok_hits (embed : String → List ℚ) (reg : Registry)
    (q : String) (ps : AskParams) (resp : RouteResult)
    (h : answerQuery embed reg q ps = Except.ok resp) :
    ∃ l, resp.hits = (List.insertionSort hitLE l).take ps.topk := by
  simp only [answerQuery] at h
  split at h
  · exact Except.noConfusion h
  · injection h with h'
    exact ⟨_, by rw [← h']⟩

/-- A successful `answerQuery` answer's context is the budgeted assembly of
its own hits' contents in rank order. -/
theorem answerQuery_ok_context (embed : String → List ℚ) (reg : Registry)
    (q : String) (ps : AskParams) (resp : RouteResult)
    (h : answerQuery embed reg q ps = Except.ok resp) :
    resp.context =
      buildContext ps.ctx_chars (resp.hits.map (fun x => x.meta.content)) := by
  simp only [answerQuery] at h
  split at h
  · exact Except.noConfusion h
  · injection h with h'
    rw [← h']

/-- C2: the hit list of every response is sorted by non-decreasing
distance. -/
theorem response_hits_sorted (embed : String → List ℚ) (reg : Registry)
    (q : String) (ps : AskParams) (resp : RouteResult)
    (h : answerQuery embed reg q ps = Except.ok resp) :
    List.Sorted (fun a b : SHit => a.distance ≤ b.distance) resp.hits := by
  obtain ⟨l, hl⟩ := answerQuery_ok_hits embed reg q ps resp h
  rw [hl]
  have hs : List.Sorted hitLE (List.insertionSort hitLE l) :=
    List.sorted_insertionSort hitLE l
  have himp : ∀ {a b : SHit}, hitLE a b → a.distance ≤ b.distance := by
    intro a b hab
    rcases (Prod.Lex.le_iff (a.distance, toLex (a.dbLabel.data, a.rank))
        (b.distance, toLex (b.dbLabel.data, b.rank))).mp hab with hlt | ⟨heq, -⟩
    · exact le_of_lt hlt
    · exact le_of_eq heq
  exact List.Pairwise.sublist (List.take_sublist _ _) (hs.imp himp)

/-- Embedding collaborator used by the concrete witnesses: a deterministic
stub, as the spec's capability-interface note prescribes for testing. -/
def wEmbed : String → List ℚ := fun _ => []

/-- Metadata of the single witness index entry. -/
def wMeta : MetaEntry :=
  { source_name := "산업안전보건법", locator := "제1조", content := "목적",
    content_format := .plain, page_image_path := none }

/-- Witness index holding one entry. -/
def wIdx : Index := ⟨[([], wMeta)]⟩

/-- Witness registry with the law index loaded. -/
def wRegistry : Registry := [("vector_db_law", wIdx)]

/-- Witness ask parameters. -/
def wParams : AskParams :=
  { topk := 5, mode := .auto, ctx_chars := 6000, dbs := ["vector_db_law"] }

/-- The hit produced by the witness query. -/
def wHit : SHit :=
  { dbLabel := "vector_db_law", rank := 0, distance := 0, meta := wMeta,
    label := "[산업안전보건법 · 제1조]", image_url := none }

/-- The response produced by the witness query. -/
def wResult : RouteResult :=
  { hits := [wHit], context := "목적", used_dbs := ["vector_db_law"] }

/-- Witness for C2 at a concrete query. -/
theorem response_hits_sorted_witness :
    List.Sorted (fun a b : SHit => a.distance ≤ b.distance) wResult.hits :=
  response_hits_sorted wEmbed wRegistry "질문" wParams wResult (by rfl)

/-- Scenario metadata: a law article. -/
def lawMeta : MetaEntry :=
  { source_name := "산업안전보건법", locator := "제10조", content := "법조문",
    content_format := .plain, page_image_path := none }

/-- Scenario metadata: a rule annex row. -/
def ruleMeta : MetaEntry :=
  { source_name := "산업안전보건기준에 관한 규칙", locator := "별표1",
    content := "규칙조문", content_format := .plain, page_image_path := none }

/-- Scenario law index: its single entry sits at squared distance 0.10 from
the scenario query embedding. -/
def scenLawIdx : Index := ⟨[([1/10, 3/10], lawMeta)]⟩

/-- Scenario rule index: its single entry sits at squared distance 0.05 from
the scenario query embedding. -/
def scenRuleIdx : Index := ⟨[([1/10, 1/5], ruleMeta)]⟩

/-- Scenario registry holding the law and rule indexes. -/
def scenReg : Registry :=
  [("vector_db_law", scenLawIdx), ("vector_db_rule", scenRuleIdx)]

/-- Scenario parameters: auto mode over both indexes. -/
def scenParams : AskParams :=
  { topk := 5, mode := .auto, ctx_chars := 6000,
    dbs := ["vector_db_law", "vector_db_rule"] }

/-- Scenario embedding stub mapping the question to the origin. -/
def scenEmbed : String → List ℚ := fun _ => [0, 0]

/-- C3: in auto mode every selected index is searched for `top_k` hits, the
per-index lists are merged by one global ascending sort on the
(distance, index label, original rank) key and truncated to `top_k`; in the
concrete scenario of a law index at best distance 0.10 and a rule index at
best distance 0.05, the rule hit comes first. -/
theorem auto_mode_global_merge :
    (∀ embed reg q ps resp, answerQuery embed reg q ps = Except.ok resp →
      resp.hits.length ≤ ps.topk ∧ List.Sorted hitLE resp.hits) ∧
      (answerQuery scenEmbed scenReg "질의" scenParams).map
          (fun resp => resp.hits.map (fun h => (h.dbLabel, h.distance))) =
        Except.ok [("vector_db_rule", (1 : ℚ)/20), ("vector_db_law", (1 : ℚ)/10)] := by
  constructor
  · intro embed reg q ps resp h
    obtain ⟨l, hl⟩ := answerQuery_ok_hits embed reg q ps resp h
    rw [hl]
    constructor
    · exact List.length_take_le _ _
    · exact List.Pairwise.sublist (List.take_sublist _ _)
        (List.sorted_insertionSort hitLE l)
  · have hdL : sqDist [0, 0] [1/10, 3/10] = (1 : ℚ)/10 := by
      norm_num [sqDist]
    have hdR : sqDist [0, 0] [1/10, 1/5] = (1 : ℚ)/20 := by
      norm_num [sqDist]
    norm_num [answerQuery, modeLabels, scenParams, scenReg, scenEmbed,
      scenLawIdx, scenRuleIdx, searchIndex, hdL, hdR, hitLabel, resolveImage,
      List.insertionSort, List.orderedInsert, hitLE, hitKey, Prod.Lex.le_iff,
      List.filterMap, List.lookup, List.enum, List.enumFrom, Except.map]

/-- Witness for C3's universally quantified part at a concrete query. -/
theorem auto_mode_global_merge_witness :
    wResult.hits.length ≤ wParams.topk ∧ List.Sorted hitLE wResult.hits :=
  auto_mode_global_merge.1 wEmbed wRegistry "질문" wParams wResult (by rfl)

/-- The length of a string is the length of its character data. -/
theorem str_length_data (s : String) : s.length = s.data.length := rfl

/-- The context buffer never grows past the budget. -/
theorem appendHits_length_le (budget : Nat) :
    ∀ (l : List String) (acc : String), acc.length ≤ budget →
      (appendHits budget acc l).length ≤ budget := by
  intro l
  induction l with
  | nil => intro acc h; exact h
  | cons c rest ih =>
    intro acc h
    rw [appendHits]
    split
    · next hc => exact ih _ (by simpa [String.length_append] using hc)
    · exact h

/-- Appending hits never shrinks the context buffer. -/
theorem appendHits_length_ge (budget : Nat) :
    ∀ (l : List String) (acc : String),
      acc.length ≤ (appendHits budget acc l).length := by
  intro l
  induction l with
  | nil => intro acc; exact le_refl _
  | cons c rest ih =>
    intro acc
    rw [appendHits]
    split
    · exact le_trans (by simp [String.length_append]; omega)
        (ih (acc ++ ctxDelim ++ c))
    · exact le_refl _

/-- The context buffer is the delimiter-join of some prefix of the remaining
hit contents appended to the accumulator. -/
theorem appendHits_glue (budget : Nat) :
    ∀ (l : List String) (acc : String), ∃ n,
      appendHits budget acc l =
        List.foldl (fun a d => a ++ ctxDelim ++ d) acc (List.take n l) := by
  intro l
  induction l with
  | nil => intro acc; exact ⟨0, rfl⟩
  | cons c rest ih =>
    intro acc
    rw [appendHits]
    split
    · obtain ⟨n, hn⟩ := ih (acc ++ ctxDelim ++ c)
      exact ⟨n + 1, by simpa [List.take_succ_cons] using hn⟩
    · exact ⟨0, rfl⟩

/-- A string of length zero is empty. -/
theorem str_length_zero_eq_empty (s : String) (h : s.length = 0) : s = "" := by
  obtain ⟨d⟩ := s
  cases d with
  | nil => rfl
  | cons a t => simp [str_length_data] at h

/-- C1: for every response with at least one hit, the assembled context is
the delimiter-join of a rank-order prefix of the hit contents, never exceeds
the character budget, equals exactly the budget when the first hit alone
exceeds it, and is non-empty whenever the budget is positive and the first
hit has content. -/
theorem context_within_budget (embed : String → List ℚ) (reg : Registry)
    (q : String) (ps : AskParams) (resp : RouteResult) (c : String)
    (rest : List String)
    (h : answerQuery embed reg q ps = Except.ok resp)
    (hc : resp.hits.map (fun x => x.meta.content) = c :: rest) :
    resp.context.length ≤ ps.ctx_chars ∧
      (ps.ctx_chars < c.length → resp.context.length = ps.ctx_chars) ∧
      (0 < ps.ctx_chars → c ≠ "" → resp.context ≠ "") ∧
      (c.length ≤ ps.ctx_chars → ∃ n, resp.context = glue (c :: List.take n rest)) := by
  have hctx := answerQuery_ok_context embed reg q ps resp h
  rw [hc] at hctx
  rw [hctx]
  have htake : ∀ n : Nat, (strTake c n).length = min n c.data.length := by
    intro n
    show (c.data.take n).length = _
    exact List.length_take _ _
  refine ⟨?_, ?_, ?_, ?_⟩
  · rw [buildContext]
    split
    · next hfit => exact appendHits_length_le _ rest c hfit
    · rw [htake]
      exact min_le_left _ _
  · intro hov
    rw [buildContext, if_neg (not_le.mpr hov), htake]
    exact min_eq_left (le_of_lt hov)
  · intro hpos hcne
    rw [buildContext]
    split
    · next hfit =>
      intro he
      have hge := appendHits_length_ge ps.ctx_chars rest c
      rw [he] at hge
      exact hcne (str_length_zero_eq_empty c (Nat.le_zero.mp hge))
    · next hover =>
      intro he
      have h0 : (strTake c ps.ctx_chars).length = 0 := by rw [he]; rfl
      rw [htake] at h0
      rcases Nat.min_eq_zero_iff.mp h0 with h1 | h1
      · exact absurd h1 (Nat.pos_iff_ne_zero.mp hpos)
      · exact hcne (str_length_zero_eq_empty c h1)
  · intro hfit
    rw [buildContext, if_pos hfit]
    obtain ⟨n, hn⟩ := appendHits_glue ps.ctx_chars rest c
    exact ⟨n, by rw [hn]; rfl⟩

/-- Overflow witness parameters for C1: a budget of one character. -/
def wParamsOv : AskParams :=
  { topk := 5, mode := .auto, ctx_chars := 1, dbs := ["vector_db_law"] }

/-- Overflow witness response for C1: the single hit's two-character content
is truncated to exactly the one-character budget. -/
def wResultOv : RouteResult :=
  { hits := [wHit], context := "목", used_dbs := ["vector_db_law"] }

/-- Witness for C1: the fit case stays within budget, is non-empty and is a
delimiter-join prefix; the overflow case is cut to exactly the budget. -/
theorem context_within_budget_witness :
    wResult.context.length ≤ wParams.ctx_chars ∧ wResult.context ≠ "" ∧
      (∃ n, wResult.context = glue ("목적" :: List.take n [])) ∧
      wResultOv.context.length = wParamsOv.ctx_chars :=
  ⟨(context_within_budget wEmbed wRegistry "질문" wParams wResult "목적" []
      rfl rfl).1,
    (context_within_budget wEmbed wRegistry "질문" wParams wResult "목적" []
      rfl rfl).2.2.1 (by decide) (by decide),
    (context_within_budget wEmbed wRegistry "질문" wParams wResult "목적" []
      rfl rfl).2.2.2 (by decide),
    (context_within_budget wEmbed wRegistry "질문" wParamsOv wResultOv "목적" []
      rfl rfl).2.1 (by decide)⟩

/-- Head of `dropWhile p` never satisfies `p`. -/
theorem head_dropWhile_false (p : Char → Bool) :
    ∀ (l : List Char) (a : Char), (l.dropWhile p).head? = some a → p a = false := by
  intro l
  induction l with
  | nil => intro a h; simp at h
  | cons c t ih =>
    intro a h
    by_cases hc : p c = true
    · rw [List.dropWhile_cons_of_pos hc] at h
      exact ih a h
    · rw [List.dropWhile_cons_of_neg hc] at h
      simp at h
      rw [← h]
      exact Bool.eq_false_iff.mpr hc

/-- Counterexample for C6: `HitCard` resolves a relative `image_url` that
does not start with a slash by plain concatenation, not by a join with
exactly one separating slash. -/
theorem image_url_one_slash_join_fails :
    imgSrc "http://127.0.0.1:8000" (some "images/a.png") =
        some "http://127.0.0.1:8000images/a.png" ∧
      imgSrc "http://127.0.0.1:8000" (some "images/a.png") ≠
        some ("http://127.0.0.1:8000" ++ "/" ++ "images/a.png") := by
  constructor
  · rfl
  · decide

/-- C6 (amended): `absolutize` maps absent or empty urls to no image,
returns case-insensitive `http(s)://` urls unchanged, resolves root-relative
paths against the base's origin, and joins every other path to the base with
exactly one separating slash; `HitCard.imgSrc`, by contrast, treats any
`http` prefix as absolute and concatenates the base (at most one trailing
slash removed) with the path without inserting a separator. -/
theorem image_url_resolution_amended :
    (∀ base, absolutize base none = none ∧ absolutize base (some "") = none) ∧
      (∀ base u, isHttpAbs u = true → absolutize base (some u) = some u) ∧
      (∀ base u, isHttpAbs u = false → headIsSlash u = true →
        hasScheme base = true →
        absolutize base (some u) = some (urlOrigin base ++ u)) ∧
      (∀ base u, u ≠ "" → isHttpAbs u = false → headIsSlash u = false →
        absolutize base (some u) =
          some (stripTrailingSlashes base ++ "/" ++ u)) ∧
      (∀ base, (stripTrailingSlashes base).data.getLast? ≠ some '/') ∧
      (∀ base, imgSrc base none = none ∧ imgSrc base (some "") = none) ∧
      (∀ base u, u ≠ "" → prefixB "http" u = true →
        imgSrc base (some u) = some u) ∧
      (∀ base u, u ≠ "" → prefixB "http" u = false →
        imgSrc base (some u) = some (stripOneTrailingSlash base ++ u)) := by
  refine ⟨?_, ?_, ?_, ?_, ?_, ?_, ?_, ?_⟩
  · intro base
    exact ⟨rfl, rfl⟩
  · intro base u hu
    have hne : u ≠ "" := by
      intro he
      subst he
      simp [isHttpAbs] at hu
    simp [absolutize, hne, hu]
  · intro base u hu hs hb
    have hne : u ≠ "" := by
      intro he
      subst he
      simp [headIsSlash] at hs
    simp [absolutize, hne, hu, hs, hb]
  · intro base u hne hu hs
    have hdrop : stripLeadingSlashes u = u := by
      obtain ⟨d⟩ := u
      cases d with
      | nil => rfl
      | cons c t =>
        simp only [headIsSlash] at hs
        have hcne : ¬(slashChar c = true) := by simp [hs]
        simp [stripLeadingSlashes, List.dropWhile_cons_of_neg hcne]
    simp [absolutize, hne, hu, hs, hdrop]
  · intro base h
    have := head_dropWhile_false slashChar base.data.reverse '/'
    have hgl : (stripTrailingSlashes base).data.getLast? =
        (base.data.reverse.dropWhile slashChar).head? := by
      simp [stripTrailingSlashes]
    rw [hgl] at h
    have := this h
    simp [slashChar] at this
  · intro base
    exact ⟨rfl, rfl⟩
  · intro base u hne hu
    simp [imgSrc, hne, hu]
  · intro base u hne hu
    simp [imgSrc, hne, hu]

/-- Witness for C6's amended theorem: resolution of a root-relative path by
`absolutize` and of a root-relative path by `HitCard.imgSrc`, both against
the default API base. -/
theorem image_url_resolution_amended_witness :
    absolutize "http://127.0.0.1:8000" (some "/static/images/a.png") =
        some "http://127.0.0.1:8000/static/images/a.png" ∧
      imgSrc "http://127.0.0.1:8000/" (some "/static/images/a.png") =
        some "http://127.0.0.1:8000/static/images/a.png" := by
  constructor
  · exact (image_url_resolution_amended.2.2.1 "http://127.0.0.1:8000"
      "/static/images/a.png" rfl rfl rfl).trans (by decide)
  · exact (image_url_resolution_amended.2.2.2.2.2.2.2 "http://127.0.0.1:8000/"
      "/static/images/a.png" (by decide) rfl).trans (by decide)

/-- Witness for C10: a send with both database checkboxes deselected posts a
request whose `dbs` field is omitted. -/
theorem dbs_omitted_or_nonempty_subset_witness :
    (AskRequest.dbs
      { question := "hi", topk := 5, mode := .auto, ctx_chars := 6000,
        dbs := none } = none ∨
      ∃ l, AskRequest.dbs
        { question := "hi", topk := 5, mode := .auto, ctx_chars := 6000,
          dbs := none } = some l ∧ l ≠ [] ∧
        ∀ x ∈ l, x ∈ ["vector_db_law", "vector_db_rule"]) ∧
      (bothOffControls.useLaw = false → bothOffControls.useRule = false →
        AskRequest.dbs
          { question := "hi", topk := 5, mode := .auto, ctx_chars := 6000,
            dbs := none } = none) :=
  dbs_omitted_or_nonempty_subset "hi" false bothOffControls _ rfl
